import Mathlib

/-!
Shallow embedding of the event-booking REST API (Go, Gin + SQLite).

The `events` table is modelled as a list of rows in insertion order; the
process-wide `events` slice of the models package (the accumulator that
`GetAllEvents` appends to) is carried alongside it in `DBState`.  Driver-level
scanning of the DATETIME column into a time value can fail on a malformed
stored value; this is modelled by `DtCol`.  Fresh UUIDs produced by
`uuid.NewString()` are passed in as explicit string parameters.
-/

namespace EventBooking

/-- a value stored in the DATETIME column: either a well-formed timestamp the
driver can scan into a time value, or a raw value on which the scan fails. -/
inductive DtCol where
  | dt (n : Nat) : DtCol
  | raw (s : String) : DtCol
deriving DecidableEq, Repr

/-- the Event struct of the models package (models/event.go): ID, Title,
Description, Location, DateTime, UserID; Title, Description, Location and
DateTime carry gin `binding:"required"` tags. -/
structure Event where
  ID : String
  Title : String
  Description : String
  Location : String
  DateTime : Nat
  UserID : String
deriving DecidableEq, Repr

/-- a row of the `events` table, columns in schema order:
id, name, description, location, datetime, user_id (db.go `createTables`). -/
structure Row where
  id : String
  name : String
  description : String
  location : String
  datetime : DtCol
  user_id : String
deriving DecidableEq, Repr

/-- the storage-visible state: the `events` table plus the package-level
`events` slice of models/event.go that `GetAllEvents` appends to. -/
structure DBState where
  table : List Row
  events : List Event
deriving DecidableEq, Repr

/-- driver scan of a DATETIME column value into a time value. -/
def scanDatetime : DtCol → Option Nat
  | .dt n => some n
  | .raw _ => none

/-- rows.Scan in column order id, name, description, location, datetime,
user_id into ID, Title, Description, Location, DateTime, UserID; fails when
the datetime value cannot be scanned. -/
def scanRow (r : Row) : Option Event :=
  match scanDatetime r.datetime with
  | none => none
  | some n => some ⟨r.id, r.name, r.description, r.location, n, r.user_id⟩

/-- the row written by `Event.Save`: the id column receives the freshly
generated `rowId` (`uuid.NewString()` inside Save), never `e.ID`; the other
columns come from the Event's fields. -/
def rowOfSave (rowId : String) (e : Event) : Row :=
  ⟨rowId, e.Title, e.Description, e.Location, .dt e.DateTime, e.UserID⟩

/-- Event.Save (models/event.go): INSERT INTO events with a fresh uuid for the
id column; the insert fails on a primary-key collision. -/
def Event.save (e : Event) (rowId : String) (s : DBState) : Except String DBState :=
  if s.table.any (fun r => r.id == rowId) then
    .error "UNIQUE constraint failed: events.id"
  else
    .ok { s with table := s.table ++ [rowOfSave rowId e] }

/-- scanning of a full result set, row by row, failing on the first row whose
scan fails. -/
def scanAll : List Row → Option (List Event)
  | [] => some []
  | r :: rs =>
    match scanRow r, scanAll rs with
    | some e, some es => some (e :: es)
    | _, _ => none

/-- the scan loop of GetAllEvents: each successfully scanned row is appended
to the package-level accumulator; a scan failure stops the loop, keeping the
rows appended so far.  Returns (result, final accumulator). -/
def getAllLoop : List Row → List Event → Option (List Event) × List Event
  | [], acc => (some acc, acc)
  | r :: rs, acc =>
    match scanRow r with
    | none => (none, acc)
    | some e => getAllLoop rs (acc ++ [e])

/-- GetAllEvents (models/event.go): SELECT * FROM events, appending every
scanned row to the package-level `events` slice and returning that whole
slice; on a scan failure it returns nil (modelled `none`) while the rows
already appended stay in the accumulator. -/
def getAllEvents (s : DBState) : Option (List Event) × DBState :=
  match getAllLoop s.table s.events with
  | (res, acc) => (res, { s with events := acc })

/-- the message built by GetEventById via fmt.Sprint (both operands are
strings, so no separating space is inserted). -/
def notFoundMsg (id : String) : String :=
  "Couldn't find an event with the ID of" ++ id

/-- GetEventById (models/event.go): SELECT * FROM events where id=?; every
failure — no matching row, a row whose scan fails, or a scanned event whose
ID is the empty string — collapses to the same not-found message. -/
def getEventById (id : String) (s : DBState) : Except String Event :=
  match s.table.find? (fun r => r.id == id) with
  | none => .error (notFoundMsg id)
  | some r =>
    match scanRow r with
    | none => .error (notFoundMsg id)
    | some e => if e.ID == "" then .error (notFoundMsg id) else .ok e

/-- Modelled from the spec: the body of `Event.Update` is not among the
provided sources (only its tests and its caller `updateEvent` are).  Per the
spec it "overwrites title, description, location, and `date_time` for the row
matching the Event's `id`"; only those four mutable columns are written — the
id and user_id columns are untouched. -/
def Event.update (e : Event) (s : DBState) : DBState :=
  { s with table := s.table.map (fun r =>
      if r.id == e.ID then
        { r with name := e.Title, description := e.Description,
                 location := e.Location, datetime := .dt e.DateTime }
      else r) }

/-- Modelled from the spec: the body of `Event.Delete` is not among the
provided sources (only its tests and its caller `deleteEvent` are).  Per the
spec it "removes the row matching the Event's `id`". -/
def Event.delete (e : Event) (s : DBState) : DBState :=
  { s with table := s.table.filter (fun r => !(r.id == e.ID)) }

/-- Modelled from the spec: the body of `GetEventsByUserId` is not among the
provided sources (only its test is).  Per the spec it "selects rows whose
`user_id` matches, returning the matching subset as Event values". -/
def getEventsByUserId (userId : String) (s : DBState) : Option (List Event) :=
  scanAll (s.table.filter (fun r => r.user_id == userId))

/-- the row count of `SELECT COUNT(*) FROM events WHERE id = ?`
(testutils `AssertDatabaseCount` specialised to an id, and the delete tests). -/
def countById (id : String) (s : DBState) : Nat :=
  (s.table.filter (fun r => r.id == id)).length

/-- an HTTP response as the handlers build it with gin: a status code plus the
JSON body fields the handlers actually emit (absent fields stay `none`). -/
structure HttpResponse where
  status : Nat
  message : Option String := none
  error : Option String := none
  event : Option Event := none
  events : Option (List Event) := none
deriving DecidableEq, Repr

/-- a JSON request body as seen by `ShouldBindJSON` for the Event struct:
string fields default to the empty string (Go zero value) when absent, and
the DateTime field is `none` when absent, malformed, or the zero time. -/
structure ReqBody where
  ID : String := ""
  Title : String := ""
  Description : String := ""
  Location : String := ""
  DateTime : Option Nat := none
  UserID : String := ""
deriving DecidableEq, Repr

/-- gin `ShouldBindJSON` onto a models.Event: the `binding:"required"` tags on
Title, Description, Location and DateTime make binding fail when any of them
is absent or its zero value; ID and UserID are bound without validation. -/
def bindJSON (b : ReqBody) : Option Event :=
  match b.DateTime with
  | none => none
  | some dt =>
    if b.Title == "" || b.Description == "" || b.Location == "" then none
    else some ⟨b.ID, b.Title, b.Description, b.Location, dt, b.UserID⟩

/-- getEvents handler (GET /events, routes/events.go): 500 on a fetch error,
otherwise 200 with the list returned by GetAllEvents. -/
def getEvents (s : DBState) : HttpResponse × DBState :=
  match getAllEvents s with
  | (none, s2) => ({ status := 500, error := some "couldn't fetch events" }, s2)
  | (some es, s2) => ({ status := 200, events := some es }, s2)

/-- getEvent handler (GET /events/:id, routes/events.go): 404 with the error
message when GetEventById fails, otherwise 302 with the event. -/
def getEvent (id : String) (s : DBState) : HttpResponse × DBState :=
  match getEventById id s with
  | .error msg => ({ status := 404, error := some msg }, s)
  | .ok e => ({ status := 302, event := some e }, s)

/-- createEvent handler (POST /event, routes/events.go): on a binding failure
it returns 400 without touching storage; otherwise it overwrites ID and UserID
with fresh uuids (`bodyId`, `userId`) and calls Save, which generates its own
independent `rowId` for the stored row; 400 if Save fails, else 201 echoing
the Event value (whose ID is `bodyId`, not the stored `rowId`). -/
def createEvent (bodyId userId rowId : String) (b : ReqBody) (s : DBState) :
    HttpResponse × DBState :=
  match bindJSON b with
  | none =>
    ({ status := 400, message := some "something went wrong",
       error := some "binding error" }, s)
  | some ev =>
    let newEvent : Event := { ev with ID := bodyId, UserID := userId }
    match newEvent.save rowId s with
    | .error msg =>
      ({ status := 400, message := some "something went wrong",
         error := some msg }, s)
    | .ok s2 =>
      ({ status := 201,
         message := some "A new event has been created successfully",
         event := some newEvent }, s2)

/-- updateEvent handler (PUT /events/:id): 404 when GetEventById fails, 400 on
a binding failure; otherwise the bound Event's ID is forced to the existing
event's id before Update, and the bound value is echoed with 200. -/
def updateEvent (id : String) (b : ReqBody) (s : DBState) :
    HttpResponse × DBState :=
  match getEventById id s with
  | .error msg => ({ status := 404, error := some msg }, s)
  | .ok e =>
    match bindJSON b with
    | none => ({ status := 400, error := some "binding error" }, s)
    | some bound =>
      let updatedEvent : Event := { bound with ID := e.ID }
      ({ status := 200, message := some "Event updated successfully",
         event := some updatedEvent }, updatedEvent.update s)

/-- deleteEvent handler (DELETE /events/:id): 404 when GetEventById fails,
otherwise the fetched event is deleted and 200 is returned. -/
def deleteEvent (id : String) (s : DBState) : HttpResponse × DBState :=
  match getEventById id s with
  | .error msg => ({ status := 404, error := some msg }, s)
  | .ok e => ({ status := 200, message := some "Event deleted successfully" }, e.delete s)

/-! Concrete fixtures used to evaluate the theorems on closed inputs. -/

/-- an empty store with an empty accumulator (a fresh process over a fresh
in-memory database, as the test setup produces). -/
def emptyDB : DBState := ⟨[], []⟩

/-- a well-formed stored row. -/
def demoRow : Row := ⟨"r1", "T", "D", "L", .dt 5, "U"⟩

/-- the Event value scanned back from `demoRow`. -/
def demoEvent : Event := ⟨"r1", "T", "D", "L", 5, "U"⟩

/-- a row whose datetime column holds a value the driver cannot scan into a
time value. -/
def badRow : Row := ⟨"r2", "T2", "D2", "L2", .raw "not-a-time", "U2"⟩

/-- a creation request body with all four required fields present. -/
def demoBody : ReqBody :=
  { Title := "New Event", Description := "New Description",
    Location := "New Location", DateTime := some 100 }

/-- a creation request body with the title missing. -/
def noTitleBody : ReqBody :=
  { Description := "New Description", Location := "New Location",
    DateTime := some 100 }

/-- a stored row owned by the test user. -/
def userRow1 : Row :=
  ⟨"u1", "User Event 1", "Description 1", "Location 1", .dt 10, "test-user-123"⟩

/-- a second stored row owned by the test user. -/
def userRow2 : Row :=
  ⟨"u2", "User Event 2", "Description 2", "Location 2", .dt 20, "test-user-123"⟩

/-- a stored row owned by a different user. -/
def otherRow : Row :=
  ⟨"u3", "Other User Event", "Other Description", "Other Location", .dt 30,
   "other-user-456"⟩

/-- a store with three rows, two of them owned by the test user. -/
def threeUserDB : DBState := ⟨[userRow1, userRow2, otherRow], []⟩

/-- a store holding one well-formed row. -/
def row1 : Row :=
  ⟨"id-1", "Original Title", "Original Description", "Original Location",
   .dt 50, "test-user-123"⟩

/-- a one-row store with an empty accumulator. -/
def oneRowDB : DBState := ⟨[row1], []⟩

/-- an update request body with all four required fields present. -/
def updBody : ReqBody :=
  { Title := "Updated Title", Description := "Updated Description",
    Location := "Updated Location", DateTime := some 60 }

/-- the two events of `threeUserDB` owned by the test user, as scanned. -/
def userEventsExpected : List Event :=
  [⟨"u1", "User Event 1", "Description 1", "Location 1", 10, "test-user-123"⟩,
   ⟨"u2", "User Event 2", "Description 2", "Location 2", 20, "test-user-123"⟩]

/-! Helper lemmas about scanning, the accumulator loop, and lookups. -/

theorem scanRow_dt {r : Row} {n : Nat} (h : r.datetime = .dt n) :
    scanRow r = some ⟨r.id, r.name, r.description, r.location, n, r.user_id⟩ := by
  simp [scanRow, h, scanDatetime]

theorem scanRow_some_elim {r : Row} {e : Event} (h : scanRow r = some e) :
    r.datetime = .dt e.DateTime ∧ e.ID = r.id ∧ e.Title = r.name
    ∧ e.Description = r.description ∧ e.Location = r.location
    ∧ e.UserID = r.user_id := by
  unfold scanRow at h
  cases hd : r.datetime with
  | raw s => rw [hd] at h; simp [scanDatetime] at h
  | dt n =>
    rw [hd] at h
    simp only [scanDatetime, Option.some.injEq] at h
    subst h
    exact ⟨rfl, rfl, rfl, rfl, rfl, rfl⟩

theorem scanAll_length {rows : List Row} {es : List Event}
    (h : scanAll rows = some es) : es.length = rows.length := by
  induction rows generalizing es with
  | nil =>
    simp only [scanAll, Option.some.injEq] at h
    subst h; rfl
  | cons r rs ih =>
    unfold scanAll at h
    cases h1 : scanRow r with
    | none => rw [h1] at h; simp at h
    | some e =>
      rw [h1] at h
      cases h2 : scanAll rs with
      | none => rw [h2] at h; simp at h
      | some es2 =>
        rw [h2] at h
        simp only [Option.some.injEq] at h
        subst h
        simp [ih h2]

theorem scanAll_mem {rows : List Row} {es : List Event}
    (h : scanAll rows = some es) : ∀ e ∈ es, ∃ r ∈ rows, scanRow r = some e := by
  induction rows generalizing es with
  | nil =>
    simp only [scanAll, Option.some.injEq] at h
    subst h; intro e he; cases he
  | cons r rs ih =>
    unfold scanAll at h
    cases h1 : scanRow r with
    | none => rw [h1] at h; simp at h
    | some e0 =>
      rw [h1] at h
      cases h2 : scanAll rs with
      | none => rw [h2] at h; simp at h
      | some es2 =>
        rw [h2] at h
        simp only [Option.some.injEq] at h
        subst h
        intro e he
        rcases List.mem_cons.mp he with rfl | hmem
        · exact ⟨r, List.mem_cons_self _ _, h1⟩
        · obtain ⟨r2, hr2, hs2⟩ := ih h2 e hmem
          exact ⟨r2, List.mem_cons_of_mem _ hr2, hs2⟩

theorem getAllLoop_ok {rows : List Row} {es : List Event}
    (h : scanAll rows = some es) (acc : List Event) :
    getAllLoop rows acc = (some (acc ++ es), acc ++ es) := by
  induction rows generalizing es acc with
  | nil =>
    simp only [scanAll, Option.some.injEq] at h
    subst h; simp [getAllLoop]
  | cons r rs ih =>
    unfold scanAll at h
    cases h1 : scanRow r with
    | none => rw [h1] at h; simp at h
    | some e =>
      rw [h1] at h
      cases h2 : scanAll rs with
      | none => rw [h2] at h; simp at h
      | some es2 =>
        rw [h2] at h
        simp only [Option.some.injEq] at h
        subst h
        simp [getAllLoop, h1, ih h2]

theorem getAllLoop_fail {g : List Row} {gs : List Event} {bad : Row}
    (rest : List Row) (hg : scanAll g = some gs) (hbad : scanRow bad = none)
    (acc : List Event) :
    getAllLoop (g ++ bad :: rest) acc = (none, acc ++ gs) := by
  induction g generalizing gs acc with
  | nil =>
    simp only [scanAll, Option.some.injEq] at hg
    subst hg; simp [getAllLoop, hbad]
  | cons r rs ih =>
    unfold scanAll at hg
    cases h1 : scanRow r with
    | none => rw [h1] at hg; simp at hg
    | some e =>
      rw [h1] at hg
      cases h2 : scanAll rs with
      | none => rw [h2] at hg; simp at hg
      | some gs2 =>
        rw [h2] at hg
        simp only [Option.some.injEq] at hg
        subst hg
        simp [getAllLoop, h1, ih h2]

theorem getEventById_ok_elim {id : String} {s : DBState} {e : Event}
    (h : getEventById id s = .ok e) :
    ∃ r, s.table.find? (fun r => r.id == id) = some r ∧ r ∈ s.table
      ∧ scanRow r = some e ∧ e.ID = id ∧ id ≠ "" := by
  cases hf : s.table.find? (fun r => r.id == id) with
  | none => simp [getEventById, hf] at h
  | some r =>
    cases hs : scanRow r with
    | none => simp [getEventById, hf, hs] at h
    | some e2 =>
      simp only [getEventById, hf, hs] at h
      by_cases he : (e2.ID == "") = true
      · rw [if_pos he] at h; simp at h
      · rw [if_neg he] at h
        have he2 : e2 = e := by injection h
        subst he2
        have hrid : e2.ID = r.id := (scanRow_some_elim hs).2.1
        have hp := List.find?_some (p := fun (r : Row) => r.id == id) hf
        have hid : r.id = id := eq_of_beq hp
        refine ⟨r, rfl, List.mem_of_find?_eq_some hf, hs, hrid.trans hid, ?_⟩
        intro hcon
        exact he (beq_iff_eq.mpr (hrid.trans (hid.trans hcon)))

theorem getEventById_error_msg {id : String} {s : DBState} {msg : String}
    (h : getEventById id s = .error msg) : msg = notFoundMsg id := by
  cases hf : s.table.find? (fun r => r.id == id) with
  | none =>
    simp only [getEventById, hf] at h
    injection h; simp_all
  | some r =>
    cases hs : scanRow r with
    | none =>
      simp only [getEventById, hf, hs] at h
      injection h; simp_all
    | some e2 =>
      simp only [getEventById, hf, hs] at h
      by_cases he : (e2.ID == "") = true
      · rw [if_pos he] at h; injection h; simp_all
      · rw [if_neg he] at h; simp at h

theorem getEventById_no_row {id : String} {s : DBState}
    (h : ∀ r ∈ s.table, r.id ≠ id) :
    getEventById id s = .error (notFoundMsg id) := by
  have hf : s.table.find? (fun r => r.id == id) = none := by
    rw [List.find?_eq_none]
    intro r hr
    simpa using h r hr
  simp [getEventById, hf]

theorem notFoundMsg_ne_empty (id : String) : notFoundMsg id ≠ "" := by
  intro h
  have h2 := congrArg String.length h
  rw [notFoundMsg, String.length_append] at h2
  have hpos : 0 < ("Couldn't find an event with the ID of").length := by decide
  have h0 : ("" : String).length = 0 := rfl
  omega

theorem bindJSON_some_fields {b : ReqBody} {ev : Event} (h : bindJSON b = some ev) :
    ev.ID = b.ID ∧ ev.Title = b.Title ∧ ev.Description = b.Description
    ∧ ev.Location = b.Location ∧ ev.UserID = b.UserID := by
  cases hd : b.DateTime with
  | none => simp [bindJSON, hd] at h
  | some dt =>
    simp only [bindJSON, hd] at h
    by_cases hc : (b.Title == "" || b.Description == "" || b.Location == "") = true
    · rw [if_pos hc] at h; simp at h
    · rw [if_neg hc] at h
      injection h with h2
      subst h2
      exact ⟨rfl, rfl, rfl, rfl, rfl⟩

theorem find?_map_preserving {g : Row → Row} (hg : ∀ r, (g r).id = r.id)
    (id : String) (l : List Row) :
    (l.map g).find? (fun r => r.id == id)
      = (l.find? (fun r => r.id == id)).map g := by
  have hpg : ((fun (r : Row) => r.id == id) ∘ g) = fun (r : Row) => r.id == id := by
    funext r; simp [Function.comp, hg r]
  rw [List.find?_map, hpg]

theorem update_table (e : Event) (s : DBState) :
    (e.update s).table = s.table.map (fun r =>
      if r.id == e.ID then
        { r with name := e.Title, description := e.Description,
                 location := e.Location, datetime := .dt e.DateTime }
      else r) := rfl

theorem update_keeps_id (e : Event) (r : Row) :
    ((fun r => if r.id == e.ID then
        { r with name := e.Title, description := e.Description,
                 location := e.Location, datetime := DtCol.dt e.DateTime }
      else r) r).id = r.id := by
  by_cases hc : (r.id == e.ID) = true <;> simp [hc]

theorem update_ids (e : Event) (s : DBState) :
    ((e.update s).table.map fun r => r.id) = (s.table.map fun r => r.id) := by
  rw [update_table, List.map_map]
  have hcomp : ((fun (r : Row) => r.id) ∘ (fun r =>
      if r.id == e.ID then
        { r with name := e.Title, description := e.Description,
                 location := e.Location, datetime := DtCol.dt e.DateTime }
      else r)) = fun (r : Row) => r.id := by
    funext r
    exact update_keeps_id e r
  rw [hcomp]

theorem update_user_ids (e : Event) (s : DBState) :
    ((e.update s).table.map fun r => r.user_id)
      = (s.table.map fun r => r.user_id) := by
  rw [update_table, List.map_map]
  have hcomp : ((fun (r : Row) => r.user_id) ∘ (fun r =>
      if r.id == e.ID then
        { r with name := e.Title, description := e.Description,
                 location := e.Location, datetime := DtCol.dt e.DateTime }
      else r)) = fun (r : Row) => r.user_id := by
    funext r
    by_cases hc : (r.id == e.ID) = true
    · have hc2 : r.id = e.ID := eq_of_beq hc
      simp [Function.comp, hc2]
    · simp [Function.comp, hc]
  rw [hcomp]

theorem update_refetch (e : Event) (id : String) (s : DBState) (r0 : Row)
    (hf : s.table.find? (fun r => r.id == id) = some r0)
    (heid : e.ID = id) (hne : id ≠ "") :
    getEventById id (e.update s)
      = .ok ⟨id, e.Title, e.Description, e.Location, e.DateTime, r0.user_id⟩ := by
  subst heid
  have hr0 : (r0.id == e.ID) = true :=
    List.find?_some (p := fun (r : Row) => r.id == e.ID) hf
  have hfind2 : ((e.update s).table).find? (fun r => r.id == e.ID)
      = some (if r0.id == e.ID then
          { r0 with
            name := e.Title,
            description := e.Description,
            location := e.Location,
            datetime := DtCol.dt e.DateTime }
        else r0) := by
    rw [update_table, find?_map_preserving (update_keeps_id e) e.ID s.table, hf]
    rfl
  rw [if_pos hr0] at hfind2
  have hid_r0 : r0.id = e.ID := eq_of_beq hr0
  rw [hid_r0] at hfind2
  have hscan3 :
      scanRow ⟨e.ID, e.Title, e.Description, e.Location, DtCol.dt e.DateTime,
        r0.user_id⟩
      = some ⟨e.ID, e.Title, e.Description, e.Location, e.DateTime, r0.user_id⟩ :=
    scanRow_dt rfl
  have hbe2 : (e.ID == "") = false := beq_eq_false_iff_ne.mpr hne
  simp [getEventById, hfind2, hscan3, hbe2]

theorem delete_table (e : Event) (s : DBState) :
    (e.delete s).table = s.table.filter (fun r => !(r.id == e.ID)) := rfl

theorem delete_refetch (e : Event) (id : String) (s : DBState)
    (heid : e.ID = id) :
    getEventById id (e.delete s) = .error (notFoundMsg id) := by
  subst heid
  apply getEventById_no_row
  intro r hr
  rw [delete_table] at hr
  have := (List.mem_filter.mp hr).2
  simpa using this

theorem delete_count (e : Event) (id : String) (s : DBState) (heid : e.ID = id) :
    countById id (e.delete s) = 0 := by
  subst heid
  unfold countById
  rw [delete_table, List.length_eq_zero, List.filter_eq_nil_iff]
  intro r hr
  have := (List.mem_filter.mp hr).2
  simpa using this

/-! Claim theorems. -/

/-- C3: for every Event value `e`, `Save` inserts exactly one row whose id
column is the freshly generated identifier `rowId`, independent of `e.ID`:
the inserted row's id is `rowId`, and overwriting `e.ID` with any value
leaves the outcome of `Save` unchanged (`e.ID` is never written to storage),
so the id echoed to the client at creation may differ from the stored id. -/
theorem save_uses_fresh_id_independent_of_event_id (e : Event) (rowId : String)
    (s s2 : DBState) (h : e.save rowId s = .ok s2) :
    s2.table = s.table ++ [rowOfSave rowId e]
    ∧ (rowOfSave rowId e).id = rowId
    ∧ ∀ x : String, Event.save { e with ID := x } rowId s = e.save rowId s := by
  unfold Event.save at h
  by_cases hc : s.table.any (fun r => r.id == rowId) = true
  · rw [if_pos hc] at h; simp at h
  · rw [if_neg hc] at h
    injection h with h2
    refine ⟨?_, rfl, fun x => rfl⟩
    rw [← h2]

/-- evaluation of `save_uses_fresh_id_independent_of_event_id` on a concrete
event saved into the empty store. -/
theorem save_uses_fresh_id_witness :
    (Event.save ⟨"e-id", "T", "D", "L", 5, "U"⟩ "r1" emptyDB
      = .ok ⟨[⟨"r1", "T", "D", "L", .dt 5, "U"⟩], []⟩)
    ∧ (⟨[⟨"r1", "T", "D", "L", .dt 5, "U"⟩], []⟩ : DBState).table
        = emptyDB.table ++ [rowOfSave "r1" ⟨"e-id", "T", "D", "L", 5, "U"⟩] := by
  refine ⟨rfl, ?_⟩
  exact (save_uses_fresh_id_independent_of_event_id
    ⟨"e-id", "T", "D", "L", 5, "U"⟩ "r1" emptyDB _ rfl).1

/-- C2: a successful `GetAllEvents` appends the scanned rows to the
process-wide accumulator and returns the whole accumulated list; for two
successive successful calls over an unchanged store of `n` rows starting from
an empty accumulator, the second call returns every stored row twice
(length `2 * n`). -/
theorem getAllEvents_returns_growing_accumulator (s : DBState) (es : List Event)
    (hscan : scanAll s.table = some es) :
    getAllEvents s
      = (some (s.events ++ es), { table := s.table, events := s.events ++ es })
    ∧ (s.events = [] →
        (getAllEvents (getAllEvents s).2).1 = some (es ++ es)
        ∧ (es ++ es).length = 2 * s.table.length
        ∧ ∀ e : Event, (es ++ es).count e = 2 * es.count e) := by
  have h1 := getAllLoop_ok hscan s.events
  have hfst : getAllEvents s
      = (some (s.events ++ es), { table := s.table, events := s.events ++ es }) := by
    simp [getAllEvents, h1]
  refine ⟨hfst, fun hacc => ?_⟩
  rw [hfst]
  have h2 := getAllLoop_ok hscan es
  refine ⟨by simp [getAllEvents, hacc, h2], ?_, fun e => ?_⟩
  · have hlen := scanAll_length hscan
    simp [List.length_append, hlen]; omega
  · rw [List.count_append]; omega

/-- evaluation of `getAllEvents_returns_growing_accumulator` on a one-row
store: the second list-all call returns the stored row twice. -/
theorem getAllEvents_accumulator_witness :
    (getAllEvents (getAllEvents ⟨[demoRow], []⟩).2).1
      = some [demoEvent, demoEvent] := by
  have h := getAllEvents_returns_growing_accumulator ⟨[demoRow], []⟩ [demoEvent] rfl
  simpa using (h.2 rfl).1

/-- C9: `GetAllEvents` is not atomic on failure: when the scan of one row
fails after the rows before it scanned successfully, the call returns `none`
(Go nil) with an error, yet the successfully scanned rows stay appended to the
process-wide accumulator and are included in the result of every later
successful call. -/
theorem getAllEvents_partial_effect_on_failure (s : DBState) (g : List Row)
    (bad : Row) (rest : List Row) (gs : List Event)
    (htab : s.table = g ++ bad :: rest)
    (hg : scanAll g = some gs)
    (hbad : scanRow bad = none) :
    (getAllEvents s).1 = none
    ∧ (getAllEvents s).2.events = s.events ++ gs
    ∧ ∀ t2 es2, scanAll t2 = some es2 →
        (getAllEvents { table := t2, events := (getAllEvents s).2.events }).1
          = some ((s.events ++ gs) ++ es2) := by
  have h1 := getAllLoop_fail rest hg hbad s.events
  have hga : getAllEvents s = (none, { s with events := s.events ++ gs }) := by
    simp [getAllEvents, htab, h1]
  refine ⟨by rw [hga], by rw [hga], fun t2 es2 h2 => ?_⟩
  rw [hga]
  have h3 := getAllLoop_ok h2 (s.events ++ gs)
  simp [getAllEvents, h3]

/-- evaluation of `getAllEvents_partial_effect_on_failure` on a store whose
second row has an unscannable datetime: the failed call leaves the first row
in the accumulator, and a later successful call over a repaired table returns
it twice over. -/
theorem getAllEvents_partial_effect_witness :
    (getAllEvents ⟨[demoRow, badRow], []⟩).1 = none
    ∧ (getAllEvents ⟨[demoRow, badRow], []⟩).2.events = [demoEvent]
    ∧ (getAllEvents
        { table := [demoRow],
          events := (getAllEvents ⟨[demoRow, badRow], []⟩).2.events }).1
      = some [demoEvent, demoEvent] := by
  have h := getAllEvents_partial_effect_on_failure ⟨[demoRow, badRow], []⟩
    [demoRow] badRow [] [demoEvent] rfl rfl rfl
  refine ⟨h.1, by simpa using h.2.1, ?_⟩
  simpa using h.2.2 [demoRow] [demoEvent] rfl

/-- C7: a POST /event request whose body fails required-field binding is
answered with HTTP 400 and leaves the storage state untouched (the handler
returns before `Save` is reached, so no row is inserted). -/
theorem createEvent_binding_failure_leaves_store (bodyId userId rowId : String)
    (b : ReqBody) (s : DBState) (h : bindJSON b = none) :
    createEvent bodyId userId rowId b s
      = ({ status := 400, message := some "something went wrong",
           error := some "binding error" }, s) := by
  simp [createEvent, h]

/-- evaluation of `createEvent_binding_failure_leaves_store` on a body with a
missing title against a one-row store: status 400 and the store unchanged. -/
theorem createEvent_binding_failure_witness :
    (createEvent "b1" "u1" "r1" noTitleBody oneRowDB).1.status = 400
    ∧ (createEvent "b1" "u1" "r1" noTitleBody oneRowDB).2 = oneRowDB := by
  have h := createEvent_binding_failure_leaves_store "b1" "u1" "r1" noTitleBody
    oneRowDB rfl
  rw [h]
  exact ⟨rfl, rfl⟩

/-- C4: GET /events/:id answers 302 with the populated event exactly when
`GetEventById` succeeds, and answers 404 carrying the non-empty error message
that names the requested id in every failure case — no matching row, a row
whose scan fails, and a found row whose scanned id is empty all collapse to
the same not-found message. -/
theorem getEvent_302_iff_found_else_404 (id : String) (s : DBState) :
    ((getEvent id s).1.status = 302 ↔ ∃ e, getEventById id s = .ok e)
    ∧ (∀ e, getEventById id s = .ok e →
        getEvent id s = ({ status := 302, event := some e }, s))
    ∧ (∀ msg, getEventById id s = .error msg →
        getEvent id s = ({ status := 404, error := some msg }, s)
        ∧ msg = notFoundMsg id ∧ msg ≠ "")
    ∧ (s.table.find? (fun r => r.id == id) = none →
        getEventById id s = .error (notFoundMsg id))
    ∧ (∀ r, s.table.find? (fun r => r.id == id) = some r → scanRow r = none →
        getEventById id s = .error (notFoundMsg id))
    ∧ (∀ r e, s.table.find? (fun r => r.id == id) = some r →
        scanRow r = some e → e.ID = "" →
        getEventById id s = .error (notFoundMsg id)) := by
  refine ⟨?_, ?_, ?_, ?_, ?_, ?_⟩
  · cases hge : getEventById id s with
    | ok e => simp [getEvent, hge]
    | error msg => simp [getEvent, hge]
  · intro e hge; simp [getEvent, hge]
  · intro msg hge
    have hmsg := getEventById_error_msg hge
    exact ⟨by simp [getEvent, hge], hmsg, hmsg ▸ notFoundMsg_ne_empty id⟩
  · intro hf; simp [getEventById, hf]
  · intro r hf hs; simp [getEventById, hf, hs]
  · intro r e hf hs he; simp [getEventById, hf, hs, he]

/-- evaluation of `getEvent_302_iff_found_else_404`: a fabricated id against
the empty store answers 404 with the non-empty message naming the id, and the
stored id of a one-row store answers 302 with the event. -/
theorem getEvent_302_404_witness :
    getEvent "zz" emptyDB
      = ({ status := 404, error := some (notFoundMsg "zz") }, emptyDB)
    ∧ notFoundMsg "zz" ≠ ""
    ∧ getEvent "r1" ⟨[demoRow], []⟩
      = ({ status := 302, event := some demoEvent }, ⟨[demoRow], []⟩) := by
  have h1 := (getEvent_302_iff_found_else_404 "zz" emptyDB).2.2.1
    (notFoundMsg "zz") rfl
  have h2 := (getEvent_302_iff_found_else_404 "r1" ⟨[demoRow], []⟩).2.1
    demoEvent rfl
  exact ⟨h1.1, h1.2.2, h2⟩

/-- C1 as stated is false on the code: at a concrete creation request against
the empty store, the creation response echoes the event under the handler's
id ("body-uuid"), but `Save` stored the row under its own independently
generated id ("row-uuid"), so `GetEventById` on the id returned in the
response body fails with the not-found error rather than succeeding. -/
theorem createEvent_lookup_by_response_id_fails :
    (createEvent "body-uuid" "user-uuid" "row-uuid" demoBody emptyDB).1.status = 201
    ∧ ((createEvent "body-uuid" "user-uuid" "row-uuid" demoBody emptyDB).1.event).map
        (fun e => e.ID) = some "body-uuid"
    ∧ getEventById "body-uuid"
        (createEvent "body-uuid" "user-uuid" "row-uuid" demoBody emptyDB).2
      = .error (notFoundMsg "body-uuid") := by
  refine ⟨rfl, rfl, rfl⟩

/-- C1 amended: for an event created through the HTTP creation path starting
from an empty store, a subsequent list-all returns exactly one event whose
title matches; the lookup by the id returned in the creation response body
fails with not-found (the row is stored under the independently generated
row id), while a lookup by the stored row's id succeeds. -/
theorem createEvent_row_stored_under_independent_id (b : ReqBody)
    (bodyId userId rowId : String) (ev : Event)
    (hbind : bindJSON b = some ev) (hne : bodyId ≠ rowId) :
    (createEvent bodyId userId rowId b emptyDB).1.status = 201
    ∧ (createEvent bodyId userId rowId b emptyDB).1.event
        = some { ev with ID := bodyId, UserID := userId }
    ∧ (getAllEvents (createEvent bodyId userId rowId b emptyDB).2).1
        = some [{ ev with ID := rowId, UserID := userId }]
    ∧ (((getAllEvents (createEvent bodyId userId rowId b emptyDB).2).1.getD
        []).filter (fun e => e.Title == b.Title)).length = 1
    ∧ getEventById bodyId (createEvent bodyId userId rowId b emptyDB).2
        = .error (notFoundMsg bodyId)
    ∧ (rowId ≠ "" →
        getEventById rowId (createEvent bodyId userId rowId b emptyDB).2
          = .ok { ev with ID := rowId, UserID := userId }) := by
  have hhandler : createEvent bodyId userId rowId b emptyDB
      = ({ status := 201,
           message := some "A new event has been created successfully",
           event := some { ev with ID := bodyId, UserID := userId } },
         ⟨[rowOfSave rowId { ev with ID := bodyId, UserID := userId }], []⟩) := by
    simp [createEvent, hbind, Event.save, emptyDB]
  have hsc : scanAll [rowOfSave rowId { ev with ID := bodyId, UserID := userId }]
      = some [⟨rowId, ev.Title, ev.Description, ev.Location, ev.DateTime, userId⟩] :=
    rfl
  have h3 := getAllLoop_ok hsc []
  have hc3 : (getAllEvents (createEvent bodyId userId rowId b emptyDB).2).1
      = some [{ ev with ID := rowId, UserID := userId }] := by
    rw [hhandler]
    simp [getAllEvents, h3]
  have hrb : (rowId == bodyId) = false := beq_eq_false_iff_ne.mpr (Ne.symm hne)
  refine ⟨by rw [hhandler], by rw [hhandler], hc3, ?_, ?_, ?_⟩
  · have hTi := (bindJSON_some_fields hbind).2.1
    rw [hc3]
    simp [hTi]
  · rw [hhandler]
    simp [getEventById, rowOfSave, List.find?, hrb]
  · intro hrne
    rw [hhandler]
    have hre : (rowId == "") = false := beq_eq_false_iff_ne.mpr hrne
    simp [getEventById, rowOfSave, List.find?, scanRow, scanDatetime, hre]

/-- evaluation of `createEvent_row_stored_under_independent_id` on a concrete
creation request: list-all returns exactly one event with the requested title,
lookup by the response-body id fails, lookup by the stored row id succeeds. -/
theorem createEvent_independent_id_witness :
    (createEvent "body-uuid" "user-uuid" "row-uuid" demoBody emptyDB).1.status
      = 201
    ∧ (getAllEvents
        (createEvent "body-uuid" "user-uuid" "row-uuid" demoBody emptyDB).2).1
      = some [⟨"row-uuid", "New Event", "New Description", "New Location", 100,
              "user-uuid"⟩]
    ∧ getEventById "row-uuid"
        (createEvent "body-uuid" "user-uuid" "row-uuid" demoBody emptyDB).2
      = .ok ⟨"row-uuid", "New Event", "New Description", "New Location", 100,
             "user-uuid"⟩ := by
  have h := createEvent_row_stored_under_independent_id demoBody "body-uuid"
    "user-uuid" "row-uuid"
    ⟨"", "New Event", "New Description", "New Location", 100, ""⟩
    rfl (by decide)
  exact ⟨h.1, h.2.2.1, h.2.2.2.2.2 (by decide)⟩

/-- C5: for a PUT /events/:id whose target id exists and whose body binds, the
handler forces the bound Event's ID to the existing event's id (which equals
the requested id), only the four mutable columns of the matching row are
written (all row ids are unchanged), and a re-fetch by the same id returns
exactly the new values under the same id with the stored user_id. -/
theorem updateEvent_writes_only_mutable_columns (id : String) (b : ReqBody)
    (s : DBState) (e0 ev : Event)
    (hget : getEventById id s = .ok e0) (hbind : bindJSON b = some ev) :
    e0.ID = id
    ∧ (updateEvent id b s).1.status = 200
    ∧ (updateEvent id b s).1.event = some { ev with ID := e0.ID }
    ∧ (updateEvent id b s).2.table
        = s.table.map (fun r =>
            if r.id == id then
              { r with
                name := ev.Title,
                description := ev.Description,
                location := ev.Location,
                datetime := DtCol.dt ev.DateTime }
            else r)
    ∧ ((updateEvent id b s).2.table.map fun r => r.id)
        = (s.table.map fun r => r.id)
    ∧ getEventById id (updateEvent id b s).2
        = .ok ⟨id, ev.Title, ev.Description, ev.Location, ev.DateTime,
               e0.UserID⟩ := by
  obtain ⟨r0, hf, hmem, hscan, heid, hne⟩ := getEventById_ok_elim hget
  obtain ⟨hdt, hid0, hTi, hDe, hLo, hUs⟩ := scanRow_some_elim hscan
  subst heid
  have hhandler : updateEvent e0.ID b s
      = ({ status := 200, message := some "Event updated successfully",
           event := some { ev with ID := e0.ID } },
         Event.update { ev with ID := e0.ID } s) := by
    simp [updateEvent, hget, hbind]
  refine ⟨rfl, by rw [hhandler], by rw [hhandler], ?_, ?_, ?_⟩
  · rw [hhandler]
    rfl
  · rw [hhandler]
    exact update_ids _ s
  · rw [hhandler, hUs]
    exact update_refetch { ev with ID := e0.ID } e0.ID s r0 hf rfl hne

/-- evaluation of `updateEvent_writes_only_mutable_columns` on a one-row
store: the update answers 200, the re-fetch returns the new values under the
old id with the stored user_id, and the id column is untouched. -/
theorem updateEvent_mutable_columns_witness :
    (updateEvent "id-1" updBody oneRowDB).1.status = 200
    ∧ getEventById "id-1" (updateEvent "id-1" updBody oneRowDB).2
      = .ok ⟨"id-1", "Updated Title", "Updated Description", "Updated Location",
             60, "test-user-123"⟩
    ∧ ((updateEvent "id-1" updBody oneRowDB).2.table.map fun r => r.id)
      = ["id-1"] := by
  have h := updateEvent_writes_only_mutable_columns "id-1" updBody oneRowDB
    ⟨"id-1", "Original Title", "Original Description", "Original Location", 50,
     "test-user-123"⟩
    ⟨"", "Updated Title", "Updated Description", "Updated Location", 60, ""⟩
    rfl rfl
  refine ⟨h.2.1, h.2.2.2.2.2, ?_⟩
  rw [h.2.2.2.2.1]
  rfl

/-- C6: DELETE /events/:id on an existing id answers 200 and removes exactly
the rows carrying that id (a re-fetch returns not-found and the row count for
that id is zero, all other rows kept); on an id with no matching row both
DELETE and PUT answer 404 and leave the store byte-for-byte unchanged. -/
theorem deleteEvent_removes_row_404_otherwise (id : String) (s : DBState) :
    (∀ e0, getEventById id s = .ok e0 →
        (deleteEvent id s).1.status = 200
        ∧ (deleteEvent id s).2.table = s.table.filter (fun r => !(r.id == id))
        ∧ countById id (deleteEvent id s).2 = 0
        ∧ getEventById id (deleteEvent id s).2 = .error (notFoundMsg id))
    ∧ ((∀ r ∈ s.table, r.id ≠ id) →
        ((deleteEvent id s).1.status = 404 ∧ (deleteEvent id s).2 = s)
        ∧ ∀ b, (updateEvent id b s).1.status = 404
            ∧ (updateEvent id b s).2 = s) := by
  constructor
  · intro e0 hget
    obtain ⟨r0, hf, hmem, hscan, heid, hne⟩ := getEventById_ok_elim hget
    have hhandler : deleteEvent id s
        = ({ status := 200, message := some "Event deleted successfully" },
           Event.delete e0 s) := by
      simp [deleteEvent, hget]
    refine ⟨by rw [hhandler], ?_, ?_, ?_⟩
    · rw [hhandler, delete_table, heid]
    · rw [hhandler]
      exact delete_count e0 id s heid
    · rw [hhandler]
      exact delete_refetch e0 id s heid
  · intro hno
    have hged := getEventById_no_row hno
    refine ⟨⟨by simp [deleteEvent, hged], by simp [deleteEvent, hged]⟩, ?_⟩
    intro b
    exact ⟨by simp [updateEvent, hged], by simp [updateEvent, hged]⟩

/-- evaluation of `deleteEvent_removes_row_404_otherwise` on a one-row store:
deleting the stored id empties the table, the re-fetch fails and the count is
zero, while DELETE and PUT on a fabricated id answer 404 and leave the store
unchanged. -/
theorem deleteEvent_witness :
    (deleteEvent "id-1" oneRowDB).1.status = 200
    ∧ (deleteEvent "id-1" oneRowDB).2.table = []
    ∧ countById "id-1" (deleteEvent "id-1" oneRowDB).2 = 0
    ∧ getEventById "id-1" (deleteEvent "id-1" oneRowDB).2
      = .error (notFoundMsg "id-1")
    ∧ (deleteEvent "zz" oneRowDB).1.status = 404
    ∧ (deleteEvent "zz" oneRowDB).2 = oneRowDB
    ∧ (updateEvent "zz" updBody oneRowDB).1.status = 404
    ∧ (updateEvent "zz" updBody oneRowDB).2 = oneRowDB := by
  have h1 := (deleteEvent_removes_row_404_otherwise "id-1" oneRowDB).1
    ⟨"id-1", "Original Title", "Original Description", "Original Location", 50,
     "test-user-123"⟩ rfl
  have h2 := (deleteEvent_removes_row_404_otherwise "zz" oneRowDB).2 (by decide)
  refine ⟨h1.1, ?_, h1.2.2.1, h1.2.2.2, h2.1.1, h2.1.2, (h2.2 updBody).1,
    (h2.2 updBody).2⟩
  rw [h1.2.1]
  rfl

/-- C8: `GetEventsByUserId` returns only events whose UserID equals the
requested user id — the scan of exactly the matching rows, no event of any
other user — and as many events as there are matching rows. -/
theorem getEventsByUserId_exactly_matching (userId : String) (s : DBState)
    (l : List Event) (h : getEventsByUserId userId s = some l) :
    (∀ e ∈ l, e.UserID = userId)
    ∧ l.length = (s.table.filter (fun r => r.user_id == userId)).length
    ∧ scanAll (s.table.filter (fun r => r.user_id == userId)) = some l := by
  have h2 : scanAll (s.table.filter (fun r => r.user_id == userId)) = some l := h
  refine ⟨?_, scanAll_length h2, h2⟩
  intro e he
  obtain ⟨r, hr, hs⟩ := scanAll_mem h2 e he
  have hmem := List.mem_filter.mp hr
  have huid : e.UserID = r.user_id := (scanRow_some_elim hs).2.2.2.2.2
  rw [huid]
  exact eq_of_beq hmem.2

/-- evaluation of `getEventsByUserId_exactly_matching` on a three-row store of
which two rows belong to the requested user: exactly those two events are
returned and every returned event belongs to that user. -/
theorem getEventsByUserId_witness :
    getEventsByUserId "test-user-123" threeUserDB = some userEventsExpected
    ∧ (∀ e ∈ userEventsExpected, e.UserID = "test-user-123")
    ∧ userEventsExpected.length = 2 := by
  have h := getEventsByUserId_exactly_matching "test-user-123" threeUserDB
    userEventsExpected rfl
  exact ⟨rfl, h.1, rfl⟩

/-- C10: a successful PUT /events/:id answers 200 with an event whose UserID
is whatever the client supplied in the request body (bound from JSON,
defaulting to empty) while the stored user_id column is never written, so the
echoed UserID can disagree with storage. -/
theorem updateEvent_echoes_client_user_id (id : String) (b : ReqBody)
    (s : DBState) (e0 ev : Event)
    (hget : getEventById id s = .ok e0) (hbind : bindJSON b = some ev) :
    (updateEvent id b s).1.status = 200
    ∧ ((updateEvent id b s).1.event).map (fun e => e.UserID) = some b.UserID
    ∧ ((updateEvent id b s).2.table.map fun r => r.user_id)
        = (s.table.map fun r => r.user_id) := by
  have hhandler : updateEvent id b s
      = ({ status := 200, message := some "Event updated successfully",
           event := some { ev with ID := e0.ID } },
         Event.update { ev with ID := e0.ID } s) := by
    simp [updateEvent, hget, hbind]
  have hu : ev.UserID = b.UserID := (bindJSON_some_fields hbind).2.2.2.2
  refine ⟨by rw [hhandler], ?_, ?_⟩
  · rw [hhandler]
    simp [hu]
  · rw [hhandler]
    exact update_user_ids _ s

/-- evaluation of `updateEvent_echoes_client_user_id` on a one-row store with
a body that omits user_id: the response echoes an empty UserID while the
stored user_id column still holds the original owner — they disagree. -/
theorem updateEvent_user_id_disagreement_witness :
    ((updateEvent "id-1" updBody oneRowDB).1.event).map (fun e => e.UserID)
      = some ""
    ∧ ((updateEvent "id-1" updBody oneRowDB).2.table.map fun r => r.user_id)
      = ["test-user-123"]
    ∧ ("" : String) ≠ "test-user-123" := by
  have h := updateEvent_echoes_client_user_id "id-1" updBody oneRowDB
    ⟨"id-1", "Original Title", "Original Description", "Original Location", 50,
     "test-user-123"⟩
    ⟨"", "Updated Title", "Updated Description", "Updated Location", 60, ""⟩
    rfl rfl
  refine ⟨h.2.1, ?_, by decide⟩
  rw [h.2.2]
  rfl

end EventBooking
